import Mathlib

/-!
A verification development for the accounting/ledger engine of the SmartPOS
repository (`src/server/accounting.ts`, the accounting routes in
`src/server/mpesa.ts`, the zod schema `createJournalEntrySchema` in
`src/shared/schema.ts`, and the storage constraints declared in
`src/migrations/0000_initial_schema.sql`).

Modelling conventions:
* The relational store is a `DBState` of row lists in insertion order;
  `SERIAL` primary keys are explicit `next…Id` counters.
* Monetary amounts are modelled in exact integer cents (hundredths of
  the currency unit): the TS code stores 2-decimal strings (enforced by
  the zod money regex) and sums them with `parseFloat`, and the spec
  declares the amounts to be fixed-point with 2 decimal places, the
  0.01 tolerance existing only to absorb the float rounding. In cents
  every amount is an integer, sums are exact, and the 0.01 tolerance of
  the balance check is exactly 1 cent.
* The storage constraints of the migration (UNIQUE account code, UNIQUE
  journal entry number, the foreign keys, and the single-sided
  debit/credit CHECK on ledger lines) are enforced by the `dbInsert…`
  functions, which model a Postgres insert.
* A thrown exception is an `Except.error`; service operations return the
  resulting state alongside the result, so that a failed multi-step write
  keeps whatever rows were already inserted (the source wraps nothing in
  a transaction).
-/

namespace SmartPOS

/-- `accounts` table row. `type'` is the source's `type` column. -/
structure Account where
  id : Nat
  code : String
  name : String
  type' : String
  subtype : Option String
  normalBalance : String
  description : Option String
  isActive : Bool
  isSystem : Bool
  deriving DecidableEq, Repr

/-- `journal_entries` table row. Timestamps are abstract integers. -/
structure JournalEntry where
  id : Nat
  entryNumber : String
  entryDate : Int
  description : String
  referenceType : Option String
  referenceId : Option Nat
  userId : Nat
  status : String
  notes : Option String
  createdAt : Int
  updatedAt : Int
  deriving DecidableEq, Repr

/-- `ledger_entries` table row. -/
structure LedgerEntry where
  id : Nat
  journalEntryId : Nat
  accountId : Nat
  debit : Int
  credit : Int
  description : Option String
  createdAt : Int
  deriving DecidableEq, Repr

/-- The relational store: row lists in insertion order, serial-id
counters, plus the wall clock used for `new Date()` / `DEFAULT NOW()`.
`users` is just the set of user ids (target of the journal-entry FK). -/
structure DBState where
  users : List Nat
  accounts : List Account
  journalEntries : List JournalEntry
  ledgerEntries : List LedgerEntry
  nextAccountId : Nat
  nextJournalEntryId : Nat
  nextLedgerEntryId : Nat
  now : Int
  deriving DecidableEq, Repr

/-- `InsertAccount` (drizzle insert type): the fields the seed data and
`createAccount` supply; `id`/`createdAt` are generated, `isActive`
defaults to true at the storage layer. -/
structure InsertAccount where
  code : String
  name : String
  type' : String
  subtype : Option String
  normalBalance : String
  description : Option String
  isSystem : Bool
  deriving DecidableEq, Repr

/-- Constraint violations a Postgres insert can raise, per the
constraints of `0000_initial_schema.sql`. -/
inductive DBError where
  | uniqueViolation
  | foreignKeyViolation
  | checkViolation
  deriving DecidableEq, Repr

/-- Errors thrown by `AccountingService` methods: the balance-mismatch
throw of `createJournalEntry` (carrying the computed totals), a
propagated storage error, and `recordSale`'s "Required accounts not
found in chart of accounts" configuration error. -/
inductive ServiceError where
  | notBalanced (debits credits : Int)
  | dbError (e : DBError)
  | accountsNotFound
  deriving DecidableEq, Repr

/-- Insert into `accounts`: enforces `code TEXT NOT NULL UNIQUE`,
assigns the serial id, applies the `is_active` default. -/
def dbInsertAccount (s : DBState) (ia : InsertAccount) :
    Except DBError (DBState × Account) :=
  if s.accounts.any (fun a => a.code == ia.code) then
    .error .uniqueViolation
  else
    let a : Account :=
      { id := s.nextAccountId, code := ia.code, name := ia.name,
        type' := ia.type', subtype := ia.subtype,
        normalBalance := ia.normalBalance, description := ia.description,
        isActive := true, isSystem := ia.isSystem }
    .ok ({ s with accounts := s.accounts ++ [a],
                  nextAccountId := s.nextAccountId + 1 }, a)

/-- Insert into `journal_entries`: enforces `entry_number` UNIQUE and the
`user_id` foreign key, assigns the serial id and timestamp defaults. -/
def dbInsertJournalEntry (s : DBState) (entryNumber : String)
    (entryDate : Int) (description : String) (referenceType : Option String)
    (referenceId : Option Nat) (userId : Nat) (status : String)
    (notes : Option String) : Except DBError (DBState × JournalEntry) :=
  if s.journalEntries.any (fun e => e.entryNumber == entryNumber) then
    .error .uniqueViolation
  else if ¬ s.users.contains userId then
    .error .foreignKeyViolation
  else
    let je : JournalEntry :=
      { id := s.nextJournalEntryId, entryNumber := entryNumber,
        entryDate := entryDate, description := description,
        referenceType := referenceType, referenceId := referenceId,
        userId := userId, status := status, notes := notes,
        createdAt := s.now, updatedAt := s.now }
    .ok ({ s with journalEntries := s.journalEntries ++ [je],
                  nextJournalEntryId := s.nextJournalEntryId + 1 }, je)

/-- Insert into `ledger_entries`: enforces the two foreign keys and the
check constraint `(debit > 0 AND credit = 0) OR (credit > 0 AND debit = 0)`. -/
def dbInsertLedgerEntry (s : DBState) (journalEntryId accountId : Nat)
    (debit credit : Int) (description : Option String) :
    Except DBError (DBState × LedgerEntry) :=
  if ¬ s.journalEntries.any (fun e => e.id == journalEntryId) then
    .error .foreignKeyViolation
  else if ¬ s.accounts.any (fun a => a.id == accountId) then
    .error .foreignKeyViolation
  else if ¬ ((0 < debit ∧ credit = 0) ∨ (0 < credit ∧ debit = 0)) then
    .error .checkViolation
  else
    let le : LedgerEntry :=
      { id := s.nextLedgerEntryId, journalEntryId := journalEntryId,
        accountId := accountId, debit := debit, credit := credit,
        description := description, createdAt := s.now }
    .ok ({ s with ledgerEntries := s.ledgerEntries ++ [le],
                  nextLedgerEntryId := s.nextLedgerEntryId + 1 }, le)

/-! ## Chart of Accounts Registry (`AccountingService`, accounts part) -/

/-- `getAllAccounts`: `select … where accounts.isActive = true`. -/
def getAllAccounts (s : DBState) : List Account :=
  s.accounts.filter (fun a => a.isActive)

/-- `getAccount(id)`: first row with that id, or absence. -/
def getAccount (s : DBState) (id : Nat) : Option Account :=
  s.accounts.find? (fun a => a.id == id)

/-- `getAccountByCode(code)`. -/
def getAccountByCode (s : DBState) (code : String) : Option Account :=
  s.accounts.find? (fun a => a.code == code)

/-- `createAccount`: a single insert; a constraint violation throws and
leaves the state unchanged. -/
def createAccount (s : DBState) (ia : InsertAccount) :
    DBState × Except DBError Account :=
  match dbInsertAccount s ia with
  | .ok (s', a) => (s', .ok a)
  | .error e => (s, .error e)

/-- The seed list of `initializeChartOfAccounts` (17 accounts),
transcribed from `accounting.ts` lines 35–62. -/
def defaultAccounts : List InsertAccount :=
  [ { code := "1000", name := "Cash", type' := "asset",
      subtype := some "current_asset", normalBalance := "debit",
      description := some "Cash on hand and in bank", isSystem := true },
    { code := "1100", name := "Accounts Receivable", type' := "asset",
      subtype := some "current_asset", normalBalance := "debit",
      description := some "Money owed by customers", isSystem := true },
    { code := "1200", name := "Inventory", type' := "asset",
      subtype := some "current_asset", normalBalance := "debit",
      description := some "Products available for sale", isSystem := true },
    { code := "1500", name := "Equipment", type' := "asset",
      subtype := some "fixed_asset", normalBalance := "debit",
      description := some "Store equipment and fixtures", isSystem := true },
    { code := "2000", name := "Accounts Payable", type' := "liability",
      subtype := some "current_liability", normalBalance := "credit",
      description := some "Money owed to suppliers", isSystem := true },
    { code := "2100", name := "Sales Tax Payable", type' := "liability",
      subtype := some "current_liability", normalBalance := "credit",
      description := some "VAT/Tax collected from sales", isSystem := true },
    { code := "3000", name := "Owner's Capital", type' := "equity",
      subtype := none, normalBalance := "credit",
      description := some "Owner's investment in business", isSystem := true },
    { code := "3100", name := "Retained Earnings", type' := "equity",
      subtype := none, normalBalance := "credit",
      description := some "Accumulated profits", isSystem := true },
    { code := "4000", name := "Sales Revenue", type' := "revenue",
      subtype := none, normalBalance := "credit",
      description := some "Revenue from product sales", isSystem := true },
    { code := "4100", name := "Other Income", type' := "revenue",
      subtype := none, normalBalance := "credit",
      description := some "Miscellaneous income", isSystem := false },
    { code := "5000", name := "Cost of Goods Sold", type' := "expense",
      subtype := some "cogs", normalBalance := "debit",
      description := some "Direct cost of products sold", isSystem := true },
    { code := "6000", name := "Rent Expense", type' := "expense",
      subtype := some "operating_expense", normalBalance := "debit",
      description := some "Store rent", isSystem := false },
    { code := "6100", name := "Utilities Expense", type' := "expense",
      subtype := some "operating_expense", normalBalance := "debit",
      description := some "Electricity, water, internet", isSystem := false },
    { code := "6200", name := "Salaries Expense", type' := "expense",
      subtype := some "operating_expense", normalBalance := "debit",
      description := some "Employee wages", isSystem := false },
    { code := "6300", name := "Marketing Expense", type' := "expense",
      subtype := some "operating_expense", normalBalance := "debit",
      description := some "Advertising and promotions", isSystem := false },
    { code := "6400", name := "Supplies Expense", type' := "expense",
      subtype := some "operating_expense", normalBalance := "debit",
      description := some "Office and store supplies", isSystem := false },
    { code := "6500", name := "Depreciation Expense", type' := "expense",
      subtype := some "operating_expense", normalBalance := "debit",
      description := some "Asset depreciation", isSystem := false } ]

/-- The `for (const account of defaultAccounts) await createAccount(...)`
loop: sequential inserts, a thrown constraint violation aborts the loop
with the rows inserted so far kept (no transaction). -/
def seedLoop : DBState → List InsertAccount → DBState × Except DBError Unit
  | s, [] => (s, .ok ())
  | s, ia :: rest =>
    match createAccount s ia with
    | (s', .ok _) => seedLoop s' rest
    | (s', .error e) => (s', .error e)

/-- `initializeChartOfAccounts` (name shortened): no-op when
`getAllAccounts()` — the *active* accounts — is nonempty, otherwise
inserts the 17 default accounts one by one. -/
def initChartOfAccounts (s : DBState) : DBState × Except DBError Unit :=
  if (getAllAccounts s).length > 0 then (s, .ok ())
  else seedLoop s defaultAccounts

/-! ## Entry number generation (`generateEntryNumber`)

The source does `lastEntry.entryNumber.split("-")[1] || "0"` and
`parseInt` on the result; we model JS `split` and `parseInt` (for the
sign-free, whitespace-free strings that occur here) on `List Char`. -/

/-- JS `String.prototype.split("-")`. `"".split("-")` is `[""]`. -/
def jsSplitDash : List Char → List (List Char)
  | [] => [[]]
  | c :: rest =>
    match jsSplitDash rest with
    | [] => [[c]]
    | h :: t => if c = '-' then [] :: h :: t else (c :: h) :: t

def isDigitChar (c : Char) : Bool := '0' ≤ c && c ≤ '9'

def digitVal (c : Char) : Nat := c.toNat - 48

/-- Accumulating decimal parse of a leading digit run. -/
def parseDigitsAux (acc : Nat) : List Char → Nat
  | [] => acc
  | c :: rest =>
    if isDigitChar c then parseDigitsAux (acc * 10 + digitVal c) rest else acc

/-- JS `parseInt` restricted to the strings that reach it here (no sign,
no leading whitespace): `none` is `NaN`. -/
def jsParseInt (l : List Char) : Option Nat :=
  match l with
  | [] => none
  | c :: _ => if isDigitChar c then some (parseDigitsAux 0 l) else none

/-- The decimal digit character for `n % 10`-style arguments. -/
def digitChar (n : Nat) : Char :=
  match n with
  | 0 => '0' | 1 => '1' | 2 => '2' | 3 => '3' | 4 => '4'
  | 5 => '5' | 6 => '6' | 7 => '7' | 8 => '8' | _ => '9'

/-- Decimal digits of `n`, most significant first (JS `String(n)`),
fuel-structured so that it evaluates by kernel reduction. -/
def natDigitsAux : Nat → Nat → List Char → List Char
  | 0, _, acc => acc
  | fuel + 1, n, acc =>
    if n < 10 then digitChar n :: acc
    else natDigitsAux fuel (n / 10) (digitChar (n % 10) :: acc)

def natDigits (n : Nat) : List Char := natDigitsAux (n + 1) n []

/-- JS `padStart(4, "0")`. -/
def padStart4 (l : List Char) : List Char :=
  List.replicate (4 - l.length) '0' ++ l

/-- The shape of every generated entry number: `"JE-"` plus the
zero-padded decimal digits of `k`. -/
def mkEntryNumber (k : Nat) : String :=
  String.mk (['J', 'E', '-'] ++ padStart4 (natDigits k))

/-- `ORDER BY id DESC LIMIT 1`: the row with the greatest id. -/
def lastByIdDesc (l : List JournalEntry) : Option JournalEntry :=
  l.foldl
    (fun acc e =>
      match acc with
      | none => some e
      | some m => if m.id < e.id then some e else some m)
    none

/-- `generateEntryNumber`: `"JE-0001"` on an empty table, otherwise
`parseInt(last.entryNumber.split("-")[1] || "0") + 1`, zero-padded to
width 4 behind the fixed prefix. (`parseInt` of a non-numeric component
is `NaN`; then `String(NaN + 1).padStart(4, "0")` is `"0NaN"`.) -/
def generateEntryNumber (entries : List JournalEntry) : String :=
  match lastByIdDesc entries with
  | none => "JE-0001"
  | some lastEntry =>
    let comp := ((jsSplitDash lastEntry.entryNumber.data).getD 1 [])
    let compOr := if comp = [] then ['0'] else comp
    match jsParseInt compOr with
    | none => String.mk (['J', 'E', '-'] ++ padStart4 ['N', 'a', 'N'])
    | some lastNumber =>
      String.mk (['J', 'E', '-'] ++ padStart4 (natDigits (lastNumber + 1)))

/-! ## Ledger Posting Engine (`createJournalEntry`, `voidJournalEntry`) -/

/-- One element of `input.entries`. `debit`/`credit` carry the exact
value `parseFloat` yields on the 2-decimal string of the request. -/
structure JournalLineInput where
  accountId : Nat
  debit : Int
  credit : Int
  description : Option String
  deriving DecidableEq, Repr

/-- `JournalEntryInput` of `accounting.ts`. -/
structure JournalEntryInput where
  description : String
  entryDate : Option Int
  referenceType : Option String
  referenceId : Option Nat
  userId : Nat
  notes : Option String
  entries : List JournalLineInput
  deriving DecidableEq, Repr

/-- JS `Math.abs`. -/
def jsAbs (q : Int) : Int := if q < 0 then -q else q

/-- JS `a || b` on an optional string (`undefined` and `""` are falsy). -/
def jsOrElse (o : Option String) (d : String) : String :=
  match o with
  | some str => if str = "" then d else str
  | none => d

def totalDebits (input : JournalEntryInput) : Int :=
  input.entries.foldl (fun sum e => sum + e.debit) 0

def totalCredits (input : JournalEntryInput) : Int :=
  input.entries.foldl (fun sum e => sum + e.credit) 0

/-- The `for (const entry of input.entries) await db.insert(ledgerEntries)…`
loop: sequential inserts; a thrown constraint violation propagates with
the rows inserted so far kept. -/
def insertLinesLoop :
    DBState → Nat → String → List JournalLineInput →
      DBState × Except ServiceError Unit
  | s, _, _, [] => (s, .ok ())
  | s, jeId, inputDesc, e :: rest =>
    match dbInsertLedgerEntry s jeId e.accountId e.debit e.credit
        (some (jsOrElse e.description inputDesc)) with
    | .ok (s', _) => insertLinesLoop s' jeId inputDesc rest
    | .error err => (s, .error (.dbError err))

/-- `createJournalEntry`: sums the parsed debits and credits, throws the
balance-mismatch error when they differ by more than 0.01 (before any
write), otherwise allocates the entry number, inserts the header with
status `"posted"`, then inserts the lines one by one. -/
def createJournalEntry (s : DBState) (input : JournalEntryInput) :
    DBState × Except ServiceError JournalEntry :=
  let debits := totalDebits input
  let credits := totalCredits input
  if jsAbs (debits - credits) > 1 then
    (s, .error (.notBalanced debits credits))
  else
    let entryNumber := generateEntryNumber s.journalEntries
    match dbInsertJournalEntry s entryNumber (input.entryDate.getD s.now)
        input.description input.referenceType input.referenceId
        input.userId "posted" input.notes with
    | .error e => (s, .error (.dbError e))
    | .ok (s1, je) =>
      match insertLinesLoop s1 je.id input.description input.entries with
      | (s2, .ok _) => (s2, .ok je)
      | (s2, .error err) => (s2, .error err)

/-- `voidJournalEntry(id)`: `UPDATE journal_entries SET status = 'void'
WHERE id = …  RETURNING *`; returns the updated row or absence. -/
def voidJournalEntry (s : DBState) (id : Nat) :
    DBState × Option JournalEntry :=
  let updated := s.journalEntries.map
    (fun e => if e.id == id then { e with status := "void" } else e)
  ({ s with journalEntries := updated },
   updated.find? (fun e => e.id == id))

/-! ## Balance & Statement Aggregator (reads) -/

/-- Mathlib's insertion sort with a key, used to model `ORDER BY … DESC`. -/
def sortByDesc (key : α → Int) (l : List α) : List α :=
  List.insertionSort (fun a b => key b ≤ key a) l

/-- `getJournalEntries(startDate?, endDate?)`: both branches of the
source's date conditional return the same unfiltered query, ordered by
entry date descending. -/
def getJournalEntries (s : DBState) (startDate endDate : Option Int) :
    List JournalEntry :=
  let query := sortByDesc (fun e => e.entryDate) s.journalEntries
  match startDate, endDate with
  | some _, some _ => query
  | _, _ => query

/-- `getLedgerEntries(journalEntryId)`. -/
def getLedgerEntries (s : DBState) (journalEntryId : Nat) :
    List LedgerEntry :=
  s.ledgerEntries.filter (fun e => e.journalEntryId == journalEntryId)

/-- `getAccountLedger(accountId, startDate?, endDate?)`: the date
parameters are accepted and unused. -/
def getAccountLedger (s : DBState) (accountId : Nat)
    (startDate endDate : Option Int) : List LedgerEntry :=
  sortByDesc (fun e => e.createdAt)
    (s.ledgerEntries.filter (fun e => e.accountId == accountId))

structure BalanceResult where
  balance : Int
  debitTotal : Int
  creditTotal : Int
  deriving DecidableEq, Repr

/-- `getAccountBalance(accountId, asOfDate?)`: sums debit and credit over
*all* ledger rows of the account (the SQL has no join on the journal
entry and no date bound; `asOfDate` is accepted and unused), then signs
the balance by the account's normal-balance side — the `else` branch
also covers a missing account. -/
def getAccountBalance (s : DBState) (accountId : Nat)
    (asOfDate : Option Int) : BalanceResult :=
  let rows := s.ledgerEntries.filter (fun e => e.accountId == accountId)
  let debits := rows.foldl (fun sum e => sum + e.debit) 0
  let credits := rows.foldl (fun sum e => sum + e.credit) 0
  let account := getAccount s accountId
  let balance :=
    if (match account with
        | some a => a.normalBalance == "debit"
        | none => false) then
      debits - credits
    else
      credits - debits
  { balance := balance, debitTotal := debits, creditTotal := credits }

/-! ## Sale-to-Journal Translator (`recordSale`) -/

/-- `recordSale`'s argument; `total` and `costOfGoodsSold` carry the
exact values of the 2-decimal strings. -/
structure SaleData where
  saleId : Nat
  userId : Nat
  total : Int
  costOfGoodsSold : Int
  paymentMethod : String
  deriving DecidableEq, Repr

/-- `recordSale`: resolves the four well-known accounts by code, throws
the configuration error if any is missing, otherwise posts the 4-line
entry (debit Cash / credit Sales Revenue for the total, debit COGS /
credit Inventory for the cost of goods sold). -/
def recordSale (s : DBState) (saleData : SaleData) :
    DBState × Except ServiceError JournalEntry :=
  let cashAccount := getAccountByCode s "1000"
  let salesRevenueAccount := getAccountByCode s "4000"
  let cogsAccount := getAccountByCode s "5000"
  let inventoryAccount := getAccountByCode s "1200"
  match cashAccount, salesRevenueAccount, cogsAccount, inventoryAccount with
  | some cash, some rev, some cogs, some inv =>
    createJournalEntry s
      { description :=
          "Sale #" ++ toString saleData.saleId ++ " - " ++
            saleData.paymentMethod,
        entryDate := none,
        referenceType := some "sale",
        referenceId := some saleData.saleId,
        userId := saleData.userId,
        notes := none,
        entries :=
          [ { accountId := cash.id, debit := saleData.total, credit := 0,
              description := some "Cash received from sale" },
            { accountId := rev.id, debit := 0, credit := saleData.total,
              description := some "Revenue from sale" },
            { accountId := cogs.id, debit := saleData.costOfGoodsSold,
              credit := 0, description := some "Cost of goods sold" },
            { accountId := inv.id, debit := 0,
              credit := saleData.costOfGoodsSold,
              description := some "Inventory reduction" } ] }
  | _, _, _, _ => (s, .error .accountsNotFound)

/-! ## Route layer (`src/server/mpesa.ts`) -/

/-- An HTTP response at the granularity the claims need. -/
inductive HttpResult (α : Type) where
  | ok (body : α)
  | badRequest (message : String)
  | notFound (message : String)
  | serverError
  deriving DecidableEq, Repr

/-- Is `q` (in cents) the `parseFloat` value of a string matched by the
zod money regex `^\d+(\.\d\x7b1,2\x7d)?$`: the regex admits exactly the
nonnegative amounts with at most two fraction digits, i.e. the
nonnegative whole numbers of cents. -/
def isMoney2dp (q : Int) : Bool := decide (0 ≤ q)

/-- `createJournalEntrySchema` of `src/shared/schema.ts`: nonempty
description, at least 2 entries, every amount matching the money regex. -/
def createJournalEntrySchemaCheck (input : JournalEntryInput) : Bool :=
  input.description.length ≥ 1 &&
  input.entries.length ≥ 2 &&
  input.entries.all (fun e => isMoney2dp e.debit && isMoney2dp e.credit)

/-- The route's own rendering of a caught service error (`error.message`). -/
def serviceErrorMessage : ServiceError → String
  | .notBalanced _ _ => "Journal entry not balanced"
  | .dbError _ => "Failed to create journal entry"
  | .accountsNotFound => "Required accounts not found in chart of accounts"

/-- `POST /api/accounting/journal-entries`: zod-parse the body (400 on
failure, before anything runs), reject with 400 when the totals differ
by **at least** 0.01, then call the service, turning a thrown error
into a 400 with the error's message. -/
def postJournalEntryRoute (s : DBState) (input : JournalEntryInput) :
    DBState × HttpResult JournalEntry :=
  if ¬ createJournalEntrySchemaCheck input then
    (s, .badRequest "Invalid journal entry data")
  else
    let debits := totalDebits input
    let credits := totalCredits input
    if jsAbs (debits - credits) ≥ 1 then
      (s, .badRequest "Journal entry not balanced")
    else
      match createJournalEntry s input with
      | (s', .ok je) => (s', .ok je)
      | (s', .error e) => (s', .badRequest (serviceErrorMessage e))

/-- `GET /api/accounting/accounts/:id/balance`: calls
`getAccountBalance(id)` (no `asOfDate`) and returns its result; there
is no existence check and the service never throws. -/
def getAccountBalanceRoute (s : DBState) (id : Nat) :
    HttpResult BalanceResult :=
  .ok (getAccountBalance s id none)

/-! ## Decimal digits, JS split and parseInt: the entry-number toolkit -/

theorem isDigitChar_digitChar (n : Nat) : isDigitChar (digitChar n) = true := by
  rcases n with _|_|_|_|_|_|_|_|_|m <;> rfl

theorem digitVal_digitChar {n : Nat} (h : n < 10) :
    digitVal (digitChar n) = n := by
  rcases n with _|_|_|_|_|_|_|_|_|_|m <;> first | decide | omega

theorem natDigitsAux_fuel :
    ∀ (n fuel₁ fuel₂ : Nat) (acc : List Char), n < fuel₁ → n < fuel₂ →
      natDigitsAux fuel₁ n acc = natDigitsAux fuel₂ n acc := by
  intro n
  induction n using Nat.strong_induction_on with
  | _ n ih =>
    intro fuel₁ fuel₂ acc h1 h2
    cases fuel₁ with
    | zero => omega
    | succ f1 =>
      cases fuel₂ with
      | zero => omega
      | succ f2 =>
        by_cases hn : n < 10
        · simp [natDigitsAux, hn]
        · simp only [natDigitsAux, if_neg hn]
          have hdiv : n / 10 < n := Nat.div_lt_self (by omega) (by omega)
          exact ih (n / 10) hdiv f1 f2 _ (by omega) (by omega)

theorem natDigitsAux_acc :
    ∀ (n fuel : Nat) (acc : List Char), n < fuel →
      natDigitsAux fuel n acc = natDigitsAux fuel n [] ++ acc := by
  intro n
  induction n using Nat.strong_induction_on with
  | _ n ih =>
    intro fuel acc h
    cases fuel with
    | zero => omega
    | succ f =>
      by_cases hn : n < 10
      · simp [natDigitsAux, hn]
      · simp only [natDigitsAux, if_neg hn]
        have hdiv : n / 10 < n := Nat.div_lt_self (by omega) (by omega)
        have hf : n / 10 < f := by omega
        rw [ih (n / 10) hdiv f (digitChar (n % 10) :: acc) hf,
          ih (n / 10) hdiv f [digitChar (n % 10)] hf, List.append_assoc]
        rfl

/-- The standard recursive characterization of `natDigits`. -/
theorem natDigits_cons (n : Nat) : natDigits n =
    if n < 10 then [digitChar n]
    else natDigits (n / 10) ++ [digitChar (n % 10)] := by
  by_cases hn : n < 10
  · simp [natDigits, natDigitsAux, hn]
  · rw [if_neg hn]
    have hdiv : n / 10 < n := Nat.div_lt_self (by omega) (by omega)
    have hstep : natDigits n = natDigitsAux n (n / 10) [digitChar (n % 10)] := by
      unfold natDigits
      rw [show natDigitsAux (n + 1) n [] =
        (if n < 10 then digitChar n :: [] else
          natDigitsAux n (n / 10) (digitChar (n % 10) :: [])) from rfl]
      rw [if_neg hn]
    rw [hstep, natDigitsAux_acc (n / 10) n [digitChar (n % 10)] hdiv,
      natDigitsAux_fuel (n / 10) n (n / 10 + 1) [] hdiv (by omega)]
    rfl

theorem natDigits_ne_nil (n : Nat) : natDigits n ≠ [] := by
  rw [natDigits_cons]
  by_cases hn : n < 10 <;> simp [hn]

theorem natDigits_all_digits :
    ∀ n, ∀ c ∈ natDigits n, isDigitChar c = true := by
  intro n
  induction n using Nat.strong_induction_on with
  | _ n ih =>
    intro c hc
    rw [natDigits_cons] at hc
    by_cases hn : n < 10
    · rw [if_pos hn] at hc
      simp only [List.mem_singleton] at hc
      subst hc
      exact isDigitChar_digitChar n
    · rw [if_neg hn] at hc
      rcases List.mem_append.mp hc with h | h
      · exact ih (n / 10) (Nat.div_lt_self (by omega) (by omega)) c h
      · simp only [List.mem_singleton] at h
        subst h
        exact isDigitChar_digitChar _

/-- Folding the decimal-accumulate step over the digits of `n` recovers
`n`, shifted past the accumulator. -/
theorem foldl_natDigits :
    ∀ (n a : Nat),
      (natDigits n).foldl (fun x c => x * 10 + digitVal c) a =
        a * 10 ^ (natDigits n).length + n := by
  intro n
  induction n using Nat.strong_induction_on with
  | _ n ih =>
    intro a
    by_cases hn : n < 10
    · rw [natDigits_cons, if_pos hn]
      simp [digitVal_digitChar hn]
    · rw [natDigits_cons, if_neg hn]
      rw [List.foldl_append]
      simp only [List.foldl_cons, List.foldl_nil]
      rw [ih (n / 10) (Nat.div_lt_self (by omega) (by omega)) a]
      rw [digitVal_digitChar (Nat.mod_lt n (by omega))]
      rw [List.length_append, List.length_cons, List.length_nil]
      have hpow : (10:Nat) ^ ((natDigits (n / 10)).length + (0 + 1)) =
          10 ^ (natDigits (n / 10)).length * 10 := by
        rw [Nat.zero_add, pow_succ]
      rw [hpow]
      have hgen : ∀ P q r b : Nat,
          (b * P + q) * 10 + r = b * (P * 10) + (10 * q + r) := by
        intro P q r b
        ring
      rw [hgen, Nat.div_add_mod n 10]

theorem parseDigitsAux_all :
    ∀ (l : List Char) (a : Nat), (∀ c ∈ l, isDigitChar c = true) →
      parseDigitsAux a l = l.foldl (fun x c => x * 10 + digitVal c) a := by
  intro l
  induction l with
  | nil => intro a h; rfl
  | cons c rest ih =>
    intro a h
    simp only [parseDigitsAux]
    rw [if_pos (h c (by simp))]
    rw [ih _ (fun x hx => h x (by simp [hx])), List.foldl_cons]

theorem parseDigitsAux_zeros :
    ∀ (m : Nat) (l : List Char),
      parseDigitsAux 0 (List.replicate m '0' ++ l) = parseDigitsAux 0 l := by
  intro m
  induction m with
  | zero => intro l; rfl
  | succ j ih =>
    intro l
    simp only [List.replicate_succ, List.cons_append, parseDigitsAux]
    rw [if_pos (by decide)]
    have hz : 0 * 10 + digitVal '0' = 0 := by decide
    rw [hz]
    exact ih l

theorem jsParseInt_all_digits {l : List Char} (hne : l ≠ [])
    (hall : ∀ c ∈ l, isDigitChar c = true) :
    jsParseInt l = some (parseDigitsAux 0 l) := by
  cases l with
  | nil => exact absurd rfl hne
  | cons c rest =>
    simp only [jsParseInt]
    rw [if_pos (hall c (by simp))]

theorem padStart4_natDigits_ne_nil (k : Nat) :
    padStart4 (natDigits k) ≠ [] := by
  unfold padStart4
  intro hcon
  rcases List.append_eq_nil.mp hcon with ⟨_, h2⟩
  exact natDigits_ne_nil k h2

theorem padStart4_natDigits_all (k : Nat) :
    ∀ c ∈ padStart4 (natDigits k), isDigitChar c = true := by
  intro c hc
  rcases List.mem_append.mp hc with h | h
  · have := List.eq_of_mem_replicate h
    subst this
    decide
  · exact natDigits_all_digits k c h

/-- `parseInt` of `String(k).padStart(4, "0")` is `k` again. -/
theorem jsParseInt_pad_digits (k : Nat) :
    jsParseInt (padStart4 (natDigits k)) = some k := by
  rw [jsParseInt_all_digits (padStart4_natDigits_ne_nil k)
    (padStart4_natDigits_all k)]
  congr 1
  unfold padStart4
  rw [parseDigitsAux_zeros,
    parseDigitsAux_all _ _ (natDigits_all_digits k), foldl_natDigits,
    Nat.zero_mul, Nat.zero_add]

theorem jsSplitDash_no_dash :
    ∀ (l : List Char), (∀ c ∈ l, c ≠ '-') → jsSplitDash l = [l] := by
  intro l
  induction l with
  | nil => intro h; rfl
  | cons c rest ih =>
    intro h
    have hr : jsSplitDash rest = [rest] := ih (fun x hx => h x (by simp [hx]))
    simp [jsSplitDash, hr, h c (by simp)]

/-- Splitting `"JE-"` followed by a dash-free tail on `"-"`. -/
theorem jsSplitDash_je (l : List Char) (hl : ∀ c ∈ l, c ≠ '-') :
    jsSplitDash (['J', 'E', '-'] ++ l) = [['J', 'E'], l] := by
  have h1 : jsSplitDash l = [l] := jsSplitDash_no_dash l hl
  simp [jsSplitDash, h1]

theorem padStart4_natDigits_no_dash (k : Nat) :
    ∀ c ∈ padStart4 (natDigits k), c ≠ '-' := by
  intro c hc heq
  have hd := padStart4_natDigits_all k c hc
  subst heq
  exact absurd hd (by decide)

/-- The generator advances a well-formed last entry number by one. -/
theorem generateEntryNumber_mk (entries : List JournalEntry)
    (e : JournalEntry) (k : Nat)
    (hlast : lastByIdDesc entries = some e)
    (hnum : e.entryNumber = mkEntryNumber k) :
    generateEntryNumber entries = mkEntryNumber (k + 1) := by
  unfold generateEntryNumber
  rw [hlast]
  dsimp only
  rw [hnum]
  have hdata : (mkEntryNumber k).data =
      ['J', 'E', '-'] ++ padStart4 (natDigits k) := rfl
  rw [hdata, jsSplitDash_je _ (padStart4_natDigits_no_dash k)]
  have hg : [['J', 'E'], padStart4 (natDigits k)].getD 1 [] =
      padStart4 (natDigits k) := rfl
  rw [hg, if_neg (padStart4_natDigits_ne_nil k), jsParseInt_pad_digits k]
  rfl

/-- The numeric part of an entry number: what
`parseInt(s.split("-")[1])` reads from it. -/
def numericPart (str : String) : Nat :=
  (jsParseInt ((jsSplitDash str.data).getD 1 [])).getD 0

theorem numericPart_mk (k : Nat) : numericPart (mkEntryNumber k) = k := by
  unfold numericPart
  have hdata : (mkEntryNumber k).data =
      ['J', 'E', '-'] ++ padStart4 (natDigits k) := rfl
  rw [hdata, jsSplitDash_je _ (padStart4_natDigits_no_dash k)]
  have hg : [['J', 'E'], padStart4 (natDigits k)].getD 1 [] =
      padStart4 (natDigits k) := rfl
  rw [hg, jsParseInt_pad_digits k]
  rfl

/-- On a list with strictly increasing ids, `ORDER BY id DESC LIMIT 1`
is the last row. -/
theorem foldl_lastByIdDesc_step :
    ∀ (l : List JournalEntry) (m : JournalEntry),
      (∀ x ∈ l, m.id < x.id) →
      List.Pairwise (fun a b => a.id < b.id) l →
      l.foldl
        (fun acc e =>
          match acc with
          | none => some e
          | some m' => if m'.id < e.id then some e else some m')
        (some m) = some (l.getLastD m) := by
  intro l
  induction l with
  | nil => intro m h hp; rfl
  | cons e rest ih =>
    intro m h hp
    simp only [List.foldl_cons]
    rw [if_pos (h e (by simp))]
    rw [ih e (fun x hx => (List.pairwise_cons.mp hp).1 x hx)
      (List.pairwise_cons.mp hp).2]
    rw [List.getLastD_cons]

theorem lastByIdDesc_increasing (l : List JournalEntry)
    (hp : List.Pairwise (fun a b => a.id < b.id) l) :
    lastByIdDesc l = l.getLast? := by
  cases l with
  | nil => rfl
  | cons e rest =>
    unfold lastByIdDesc
    simp only [List.foldl_cons]
    rw [foldl_lastByIdDesc_step rest e
      (fun x hx => (List.pairwise_cons.mp hp).1 x hx)
      (List.pairwise_cons.mp hp).2]
    rw [List.getLast?_cons, List.getLastD_eq_getLast?]

/-! ## Shared helper lemmas -/

/-- The source's `reduce((sum, e) => sum + f(e), 0)` is the sum of the
mapped list. -/
theorem foldl_add_map {α : Type} (f : α → Int) :
    ∀ (l : List α) (a : Int),
      l.foldl (fun sum e => sum + f e) a = a + (l.map f).sum := by
  intro l
  induction l with
  | nil => intro a; simp
  | cons x xs ih =>
    intro a
    simp only [List.foldl_cons, List.map_cons, List.sum_cons, ih]
    ring

/-- A row found by `find?` is a member, so `any` over the same id holds. -/
theorem any_id_of_find?_code {s : DBState} {code : String} {a : Account}
    (h : getAccountByCode s code = some a) :
    s.accounts.any (fun x => x.id == a.id) = true := by
  refine List.any_eq_true.mpr ⟨a, List.mem_of_find?_eq_some h, ?_⟩
  exact beq_self_eq_true a.id

/-! ## Concrete fixtures used by witnesses and counterexamples -/

/-- A one-account, one-user store with nothing posted yet. -/
def cashAcct : Account :=
  { id := 1, code := "1000", name := "Cash", type' := "asset",
    subtype := some "current_asset", normalBalance := "debit",
    description := none, isActive := true, isSystem := true }

def stateW : DBState :=
  { users := [1], accounts := [cashAcct], journalEntries := [],
    ledgerEntries := [], nextAccountId := 2, nextJournalEntryId := 1,
    nextLedgerEntryId := 1, now := 0 }

def unbalancedInput : JournalEntryInput :=
  { description := "Unbalanced", entryDate := none, referenceType := none,
    referenceId := none, userId := 1, notes := none,
    entries :=
      [ { accountId := 1, debit := 5, credit := 0, description := none },
        { accountId := 1, debit := 0, credit := 3, description := none } ] }

def balancedInput : JournalEntryInput :=
  { description := "Balanced", entryDate := none, referenceType := none,
    referenceId := none, userId := 1, notes := none,
    entries :=
      [ { accountId := 1, debit := 5, credit := 0, description := none },
        { accountId := 1, debit := 0, credit := 5, description := none } ] }

/-! ## C1 — balance gate of `createJournalEntry` -/

/-- C1: when the summed debits and credits of the input differ by more
than 0.01, `createJournalEntry` throws the balance-mismatch error
carrying both computed totals and leaves the store untouched (the check
runs before any insert); consequently a successfully posted entry always
has totals within 0.01 of each other. -/
theorem createJournalEntry_balance_gate (s : DBState)
    (input : JournalEntryInput) :
    (jsAbs (totalDebits input - totalCredits input) > 1 →
      createJournalEntry s input =
        (s, .error (.notBalanced (totalDebits input) (totalCredits input)))) ∧
    ((∃ je, (createJournalEntry s input).2 = .ok je) →
      jsAbs (totalDebits input - totalCredits input) ≤ 1) := by
  constructor
  · intro h
    simp only [createJournalEntry, if_pos h]
  · rintro ⟨je, hje⟩
    by_contra hgt
    rw [not_le] at hgt
    simp only [createJournalEntry, if_pos hgt] at hje
    exact absurd hje (by simp)

/-- C1 witness: a concrete unbalanced post is rejected in place, and a
concrete successful post has totals within tolerance. -/
theorem createJournalEntry_balance_gate_witness :
    createJournalEntry stateW unbalancedInput =
      (stateW, .error (.notBalanced (totalDebits unbalancedInput)
        (totalCredits unbalancedInput))) ∧
    jsAbs (totalDebits balancedInput - totalCredits balancedInput) ≤ 1 :=
  ⟨(createJournalEntry_balance_gate stateW unbalancedInput).1 (by decide),
   (createJournalEntry_balance_gate stateW balancedInput).2 ⟨_, rfl⟩⟩

/-! ## C2 — what is (and is not) validated before the first write -/

/-- A successful `ledger_entries` insert certifies the FK on the account,
the single-sidedness check constraint, and leaves `accounts` unchanged. -/
theorem dbInsertLedgerEntry_ok_facts {s : DBState} {jid aid : Nat}
    {de cr : Int} {ds : Option String} {s' : DBState} {le : LedgerEntry}
    (h : dbInsertLedgerEntry s jid aid de cr ds = .ok (s', le)) :
    s.accounts.any (fun a => a.id == aid) = true ∧
    ((0 < de ∧ cr = 0) ∨ (0 < cr ∧ de = 0)) ∧
    s'.accounts = s.accounts := by
  unfold dbInsertLedgerEntry at h
  split at h
  next hg => exact absurd h (by simp)
  next hg1 =>
    split at h
    next hg => exact absurd h (by simp)
    next hg2 =>
      split at h
      next hg => exact absurd h (by simp)
      next hg3 =>
        have h' := h
        simp only [Except.ok.injEq, Prod.mk.injEq] at h'
        obtain ⟨hs, _⟩ := h'
        exact ⟨not_not.mp hg2, not_not.mp hg3, by rw [← hs]⟩

/-- A successful `journal_entries` insert pins down the new state and
row, and certifies the uniqueness and FK guards that held before it. -/
theorem dbInsertJournalEntry_ok_spec {s : DBState} {n : String} {d : Int}
    {ds : String} {rt : Option String} {ri : Option Nat} {u : Nat}
    {st : String} {no : Option String} {s' : DBState} {je : JournalEntry}
    (h : dbInsertJournalEntry s n d ds rt ri u st no = .ok (s', je)) :
    s' = { s with journalEntries := s.journalEntries ++ [je],
                  nextJournalEntryId := s.nextJournalEntryId + 1 } ∧
    je = { id := s.nextJournalEntryId, entryNumber := n, entryDate := d,
           description := ds, referenceType := rt, referenceId := ri,
           userId := u, status := st, notes := no, createdAt := s.now,
           updatedAt := s.now } ∧
    s.journalEntries.any (fun e => e.entryNumber == n) = false ∧
    s.users.contains u = true := by
  unfold dbInsertJournalEntry at h
  split at h
  next hg => exact absurd h (by simp)
  next hg1 =>
    split at h
    next hg => exact absurd h (by simp)
    next hg2 =>
      have h' := h
      simp only [Except.ok.injEq, Prod.mk.injEq] at h'
      obtain ⟨hs, hje⟩ := h'
      refine ⟨?_, ?_, Bool.eq_false_iff.mpr hg1, not_not.mp hg2⟩
      · rw [← hs, ← hje]
      · rw [← hje]

/-- When the line-insert loop succeeds, every line satisfied the
single-sidedness constraint and referenced an existing account of the
state the loop started from. -/
theorem insertLinesLoop_ok_lines :
    ∀ (lines : List JournalLineInput) (s : DBState) (jeId : Nat)
      (d : String) (s2 : DBState),
      insertLinesLoop s jeId d lines = (s2, .ok ()) →
      ∀ e ∈ lines,
        ((0 < e.debit ∧ e.credit = 0) ∨ (0 < e.credit ∧ e.debit = 0)) ∧
        s.accounts.any (fun a => a.id == e.accountId) = true := by
  intro lines
  induction lines with
  | nil =>
    intro s jeId d s2 h e he
    simp at he
  | cons x rest ih =>
    intro s jeId d s2 h e he
    unfold insertLinesLoop at h
    split at h
    next s' le heq =>
      rcases List.mem_cons.mp he with rfl | hmem
      · exact ⟨(dbInsertLedgerEntry_ok_facts heq).2.1,
          (dbInsertLedgerEntry_ok_facts heq).1⟩
      · have hf := ih s' jeId d s2 h e hmem
        have hacc := (dbInsertLedgerEntry_ok_facts heq).2.2
        exact ⟨hf.1, by rw [← hacc]; exact hf.2⟩
    next err heq => exact absurd h (by simp)

/-- An input with two balanced lines each carrying both a debit and a
credit of 5: it passes the zod schema and both balance checks. -/
def bothSidesInput : JournalEntryInput :=
  { description := "Adjustment", entryDate := none, referenceType := none,
    referenceId := none, userId := 1, notes := none,
    entries :=
      [ { accountId := 1, debit := 5, credit := 5, description := none },
        { accountId := 1, debit := 5, credit := 5, description := none } ] }

/-- C2 counterexample: `bothSidesInput` passes every pre-write check
(schema and balance), its lines violate the exactly-one-of-debit/credit
rule, the call does fail — but only at the first line insert, after the
journal-entry header has been written: the failing request persists a
header (journal entry count goes 0 → 1) with no lines, refuting
"nothing is persisted". -/
theorem postJournalEntry_partial_persist_cex :
    createJournalEntrySchemaCheck bothSidesInput = true ∧
    stateW.journalEntries.length = 0 ∧
    (postJournalEntryRoute stateW bothSidesInput).2 =
      .badRequest "Failed to create journal entry" ∧
    (postJournalEntryRoute stateW bothSidesInput).1.journalEntries.length = 1 ∧
    (postJournalEntryRoute stateW bothSidesInput).1.ledgerEntries.length = 0 := by
  decide

/-- C2 amended: only the schema checks (≥ 2 lines, money-format
amounts, nonempty description) and the balance check run before any
write — an input with fewer than 2 lines is rejected with nothing
persisted. Per-line single-sidedness and account existence are enforced
only by the storage constraints while inserting each line, after the
header write: a fully successful post still guarantees every line had
exactly one strictly positive side and an existing account, but a post
failing those checks leaves the already-written header behind. -/
theorem postJournalEntry_prewrite_validation (s : DBState)
    (input : JournalEntryInput) :
    (input.entries.length < 2 →
      postJournalEntryRoute s input =
        (s, .badRequest "Invalid journal entry data")) ∧
    (∀ je, (createJournalEntry s input).2 = Except.ok je →
      ∀ e ∈ input.entries,
        ((0 < e.debit ∧ e.credit = 0) ∨ (0 < e.credit ∧ e.debit = 0)) ∧
        s.accounts.any (fun a => a.id == e.accountId) = true) := by
  constructor
  · intro hlen
    have h2 : ¬ (input.entries.length ≥ 2) := by omega
    have hc : createJournalEntrySchemaCheck input = false := by
      simp [createJournalEntrySchemaCheck, h2]
    simp [postJournalEntryRoute, hc]
  · intro je h e he
    simp only [createJournalEntry] at h
    split at h
    next hbal => exact absurd h (by simp)
    next hbal =>
      split at h
      next err heq => exact absurd h (by simp)
      next s1 je0 heq =>
        split at h
        next s2 u hloop =>
          have hacc := (dbInsertJournalEntry_ok_spec heq).1
          have hf := insertLinesLoop_ok_lines input.entries s1 je0.id
            input.description s2 hloop e he
          refine ⟨hf.1, ?_⟩
          have : s1.accounts = s.accounts := by rw [hacc]
          rw [← this]
          exact hf.2
        next s2 err hloop => exact absurd h (by simp)

/-- C2 witness for the amended theorem: a one-line request is rejected
unchanged, and a concrete successful post's lines all satisfied the
storage checks against existing accounts. -/
theorem postJournalEntry_prewrite_validation_witness :
    postJournalEntryRoute stateW
      { description := "One line", entryDate := none, referenceType := none,
        referenceId := none, userId := 1, notes := none,
        entries :=
          [ { accountId := 1, debit := 5, credit := 0,
              description := none } ] } =
      (stateW, .badRequest "Invalid journal entry data") ∧
    (((0:Int) < 5 ∧ (0:Int) = 0) ∨ ((0:Int) < 0 ∧ (5:Int) = 0)) ∧
    stateW.accounts.any (fun a => a.id == 1) = true :=
  ⟨(postJournalEntry_prewrite_validation stateW _).1 (by decide),
   (postJournalEntry_prewrite_validation stateW balancedInput).2 _ rfl
     { accountId := 1, debit := 5, credit := 0, description := none }
     (by decide)⟩

/-! ## Success-case characterization of the posting pipeline -/

/-- The row `dbInsertLedgerEntry` writes when its guards pass. -/
theorem dbInsertLedgerEntry_ok_of {s : DBState} {jid aid : Nat}
    {de cr : Int} {ds : Option String}
    (hj : s.journalEntries.any (fun e => e.id == jid) = true)
    (ha : s.accounts.any (fun a => a.id == aid) = true)
    (hc : (0 < de ∧ cr = 0) ∨ (0 < cr ∧ de = 0)) :
    dbInsertLedgerEntry s jid aid de cr ds =
      .ok ({ s with
             ledgerEntries := s.ledgerEntries ++ [⟨s.nextLedgerEntryId, jid, aid, de, cr, ds, s.now⟩],
             nextLedgerEntryId := s.nextLedgerEntryId + 1 },
           ⟨s.nextLedgerEntryId, jid, aid, de, cr, ds, s.now⟩) := by
  unfold dbInsertLedgerEntry
  rw [if_neg (not_not_intro hj), if_neg (not_not_intro ha),
    if_neg (not_not_intro hc)]

/-- The row `dbInsertJournalEntry` writes when its guards pass. -/
theorem dbInsertJournalEntry_ok_of {s : DBState} {n : String} {dt : Int}
    {ds : String} {rt : Option String} {ri : Option Nat} {u : Nat}
    {st : String} {no : Option String}
    (hn : s.journalEntries.any (fun e => e.entryNumber == n) = false)
    (hu : s.users.contains u = true) :
    dbInsertJournalEntry s n dt ds rt ri u st no =
      .ok ({ s with
             journalEntries := s.journalEntries ++ [⟨s.nextJournalEntryId, n, dt, ds, rt, ri, u, st, no, s.now, s.now⟩],
             nextJournalEntryId := s.nextJournalEntryId + 1 },
           ⟨s.nextJournalEntryId, n, dt, ds, rt, ri, u, st, no, s.now, s.now⟩) := by
  unfold dbInsertJournalEntry
  rw [if_neg (by simp [hn]), if_neg (not_not_intro hu)]

/-- The ledger rows the line-insert loop writes on success, with serial
ids from `startId`: used to state the loop's success case. -/
def writtenRows (startId : Nat) (now : Int) (jid : Nat) (d : String) :
    List JournalLineInput → List LedgerEntry
  | [] => []
  | e :: rest =>
    { id := startId, journalEntryId := jid, accountId := e.accountId,
      debit := e.debit, credit := e.credit,
      description := some (jsOrElse e.description d), createdAt := now } ::
      writtenRows (startId + 1) now jid d rest

/-- When every line passes the storage checks, the loop succeeds and
appends exactly the `writtenRows`. -/
theorem insertLinesLoop_ok_of :
    ∀ (lines : List JournalLineInput) (s : DBState) (jid : Nat) (d : String),
      s.journalEntries.any (fun e => e.id == jid) = true →
      (∀ e ∈ lines,
        ((0 < e.debit ∧ e.credit = 0) ∨ (0 < e.credit ∧ e.debit = 0)) ∧
        s.accounts.any (fun a => a.id == e.accountId) = true) →
      insertLinesLoop s jid d lines =
        ({ s with
           ledgerEntries := s.ledgerEntries ++ writtenRows s.nextLedgerEntryId s.now jid d lines,
           nextLedgerEntryId := s.nextLedgerEntryId + lines.length },
         .ok ()) := by
  intro lines
  induction lines with
  | nil =>
    intro s jid d hj hl
    simp [insertLinesLoop, writtenRows]
  | cons x rest ih =>
    intro s jid d hj hl
    have hx := hl x (by simp)
    rw [insertLinesLoop,
      dbInsertLedgerEntry_ok_of hj hx.2 hx.1]
    dsimp only
    rw [ih _ jid d (by simpa using hj)
      (fun e he => by simpa using hl e (by simp [he]))]
    rw [Prod.mk.injEq]
    refine ⟨?_, rfl⟩
    simp only [writtenRows]
    rw [DBState.mk.injEq]
    refine ⟨rfl, rfl, rfl, ?_, rfl, rfl, ?_, rfl⟩
    · rw [List.append_assoc]
      rfl
    · simp only [List.length_cons]
      omega

/-- The full success case of `createJournalEntry`: with a balanced
input, a fresh generated entry number, an existing author and lines
that pass the storage checks, the service appends exactly one header
and the lines' rows. -/
theorem createJournalEntry_ok_of (s : DBState) (input : JournalEntryInput)
    (hbal : ¬ (jsAbs (totalDebits input - totalCredits input) > 1))
    (hfresh : s.journalEntries.any
      (fun e => e.entryNumber == generateEntryNumber s.journalEntries) = false)
    (huser : s.users.contains input.userId = true)
    (hlines : ∀ e ∈ input.entries,
      ((0 < e.debit ∧ e.credit = 0) ∨ (0 < e.credit ∧ e.debit = 0)) ∧
      s.accounts.any (fun a => a.id == e.accountId) = true) :
    ∃ je s2,
      createJournalEntry s input = (s2, .ok je) ∧
      je = { id := s.nextJournalEntryId,
             entryNumber := generateEntryNumber s.journalEntries,
             entryDate := input.entryDate.getD s.now,
             description := input.description,
             referenceType := input.referenceType,
             referenceId := input.referenceId, userId := input.userId,
             status := "posted", notes := input.notes, createdAt := s.now,
             updatedAt := s.now } ∧
      s2.journalEntries = s.journalEntries ++ [je] ∧
      s2.accounts = s.accounts ∧ s2.users = s.users ∧
      s2.nextJournalEntryId = s.nextJournalEntryId + 1 ∧
      s2.now = s.now ∧
      s2.ledgerEntries = s.ledgerEntries ++
        writtenRows s.nextLedgerEntryId s.now s.nextJournalEntryId
          input.description input.entries := by
  simp only [createJournalEntry]
  rw [if_neg hbal, dbInsertJournalEntry_ok_of hfresh huser]
  dsimp only
  have hj : ((s.journalEntries ++
      [ { id := s.nextJournalEntryId,
          entryNumber := generateEntryNumber s.journalEntries,
          entryDate := input.entryDate.getD s.now,
          description := input.description,
          referenceType := input.referenceType,
          referenceId := input.referenceId, userId := input.userId,
          status := "posted", notes := input.notes, createdAt := s.now,
          updatedAt := s.now } ] : List JournalEntry).any
        (fun e => e.id == s.nextJournalEntryId)) = true := by
    simp [List.any_append]
  rw [insertLinesLoop_ok_of input.entries _ _ input.description hj
    (fun e he => by simpa using hlines e he)]
  exact ⟨_, _, rfl, rfl, rfl, rfl, rfl, rfl, rfl, rfl⟩

/-! ## C3 — the sale-to-journal translation -/

/-- C3: with the four well-known accounts present (codes 1000, 4000,
5000, 1200), a positive total and cost of goods sold, an existing
author, and a fresh generated entry number, `recordSale` posts exactly
one journal entry with referenceType `"sale"` and referenceId the sale
id, and exactly 4 ledger lines: debit Cash for the total, credit Sales
Revenue for the total, debit COGS for the cost, credit Inventory for
the cost. If any of the four accounts is missing, it fails with the
configuration error and posts nothing. -/
theorem recordSale_posts_four_lines (s : DBState) (d : SaleData) :
    (∀ cash rev cogs inv,
      getAccountByCode s "1000" = some cash →
      getAccountByCode s "4000" = some rev →
      getAccountByCode s "5000" = some cogs →
      getAccountByCode s "1200" = some inv →
      0 < d.total → 0 < d.costOfGoodsSold →
      s.users.contains d.userId = true →
      s.journalEntries.any
        (fun e => e.entryNumber == generateEntryNumber s.journalEntries) =
        false →
      ∃ je,
        (recordSale s d).2 = .ok je ∧
        je.referenceType = some "sale" ∧
        je.referenceId = some d.saleId ∧
        je.status = "posted" ∧
        (recordSale s d).1.journalEntries = s.journalEntries ++ [je] ∧
        (recordSale s d).1.ledgerEntries = s.ledgerEntries ++
          [ ⟨s.nextLedgerEntryId, je.id, cash.id, d.total, 0,
              some "Cash received from sale", s.now⟩,
            ⟨s.nextLedgerEntryId + 1, je.id, rev.id, 0, d.total,
              some "Revenue from sale", s.now⟩,
            ⟨s.nextLedgerEntryId + 2, je.id, cogs.id, d.costOfGoodsSold, 0,
              some "Cost of goods sold", s.now⟩,
            ⟨s.nextLedgerEntryId + 3, je.id, inv.id, 0, d.costOfGoodsSold,
              some "Inventory reduction", s.now⟩ ]) ∧
    ((getAccountByCode s "1000" = none ∨ getAccountByCode s "4000" = none ∨
      getAccountByCode s "5000" = none ∨ getAccountByCode s "1200" = none) →
      recordSale s d = (s, .error .accountsNotFound)) := by
  constructor
  · intro cash rev cogs inv h1000 h4000 h5000 h1200 htotal hcogs huser hfresh
    have hrs : recordSale s d = createJournalEntry s
        { description :=
            "Sale #" ++ toString d.saleId ++ " - " ++ d.paymentMethod,
          entryDate := none,
          referenceType := some "sale",
          referenceId := some d.saleId,
          userId := d.userId,
          notes := none,
          entries :=
            [ ⟨cash.id, d.total, 0, some "Cash received from sale"⟩,
              ⟨rev.id, 0, d.total, some "Revenue from sale"⟩,
              ⟨cogs.id, d.costOfGoodsSold, 0, some "Cost of goods sold"⟩,
              ⟨inv.id, 0, d.costOfGoodsSold,
                some "Inventory reduction"⟩ ] } := by
      simp [recordSale, h1000, h4000, h5000, h1200]
    have htd : totalDebits
        { description :=
            "Sale #" ++ toString d.saleId ++ " - " ++ d.paymentMethod,
          entryDate := none,
          referenceType := some "sale",
          referenceId := some d.saleId,
          userId := d.userId,
          notes := none,
          entries :=
            [ ⟨cash.id, d.total, 0, some "Cash received from sale"⟩,
              ⟨rev.id, 0, d.total, some "Revenue from sale"⟩,
              ⟨cogs.id, d.costOfGoodsSold, 0, some "Cost of goods sold"⟩,
              ⟨inv.id, 0, d.costOfGoodsSold,
                some "Inventory reduction"⟩ ] } -
        totalCredits
        { description :=
            "Sale #" ++ toString d.saleId ++ " - " ++ d.paymentMethod,
          entryDate := none,
          referenceType := some "sale",
          referenceId := some d.saleId,
          userId := d.userId,
          notes := none,
          entries :=
            [ ⟨cash.id, d.total, 0, some "Cash received from sale"⟩,
              ⟨rev.id, 0, d.total, some "Revenue from sale"⟩,
              ⟨cogs.id, d.costOfGoodsSold, 0, some "Cost of goods sold"⟩,
              ⟨inv.id, 0, d.costOfGoodsSold,
                some "Inventory reduction"⟩ ] } = 0 := by
      simp [totalDebits, totalCredits]
    have hbal : ¬ (jsAbs (totalDebits
        { description :=
            "Sale #" ++ toString d.saleId ++ " - " ++ d.paymentMethod,
          entryDate := none,
          referenceType := some "sale",
          referenceId := some d.saleId,
          userId := d.userId,
          notes := none,
          entries :=
            [ ⟨cash.id, d.total, 0, some "Cash received from sale"⟩,
              ⟨rev.id, 0, d.total, some "Revenue from sale"⟩,
              ⟨cogs.id, d.costOfGoodsSold, 0, some "Cost of goods sold"⟩,
              ⟨inv.id, 0, d.costOfGoodsSold,
                some "Inventory reduction"⟩ ] } -
        totalCredits
        { description :=
            "Sale #" ++ toString d.saleId ++ " - " ++ d.paymentMethod,
          entryDate := none,
          referenceType := some "sale",
          referenceId := some d.saleId,
          userId := d.userId,
          notes := none,
          entries :=
            [ ⟨cash.id, d.total, 0, some "Cash received from sale"⟩,
              ⟨rev.id, 0, d.total, some "Revenue from sale"⟩,
              ⟨cogs.id, d.costOfGoodsSold, 0, some "Cost of goods sold"⟩,
              ⟨inv.id, 0, d.costOfGoodsSold,
                some "Inventory reduction"⟩ ] }) > 1) := by
      rw [htd]
      simp [jsAbs]
    obtain ⟨je, s2, heq, hje, hjes, hacc, husers, hnext, hnow, hled⟩ :=
      createJournalEntry_ok_of s _ hbal hfresh huser (by
        intro e he
        simp only [List.mem_cons, List.not_mem_nil, or_false] at he
        rcases he with rfl | rfl | rfl | rfl
        · exact ⟨Or.inl ⟨htotal, rfl⟩, any_id_of_find?_code h1000⟩
        · exact ⟨Or.inr ⟨htotal, rfl⟩, any_id_of_find?_code h4000⟩
        · exact ⟨Or.inl ⟨hcogs, rfl⟩, any_id_of_find?_code h5000⟩
        · exact ⟨Or.inr ⟨hcogs, rfl⟩, any_id_of_find?_code h1200⟩)
    refine ⟨je, ?_, ?_, ?_, ?_, ?_, ?_⟩
    · rw [hrs, heq]
    · rw [hje]
    · rw [hje]
    · rw [hje]
    · rw [hrs, heq]
      exact hjes
    · rw [hrs, heq, hled, hje]
      simp [writtenRows, jsOrElse]
  · intro h
    rcases h with h | h | h | h
    · simp [recordSale, h]
    · cases h1 : getAccountByCode s "1000" <;>
        simp [recordSale, h1, h]
    · cases h1 : getAccountByCode s "1000" <;>
        cases h2 : getAccountByCode s "4000" <;>
          simp [recordSale, h1, h2, h]
    · cases h1 : getAccountByCode s "1000" <;>
        cases h2 : getAccountByCode s "4000" <;>
          cases h3 : getAccountByCode s "5000" <;>
            simp [recordSale, h1, h2, h3, h]

/-- A chart seeded with the four well-known accounts. -/
def saleChartState : DBState :=
  { users := [1],
    accounts :=
      [ cashAcct,
        { id := 2, code := "4000", name := "Sales Revenue",
          type' := "revenue", subtype := none, normalBalance := "credit",
          description := none, isActive := true, isSystem := true },
        { id := 3, code := "5000", name := "Cost of Goods Sold",
          type' := "expense", subtype := some "cogs",
          normalBalance := "debit", description := none, isActive := true,
          isSystem := true },
        { id := 4, code := "1200", name := "Inventory", type' := "asset",
          subtype := some "current_asset", normalBalance := "debit",
          description := none, isActive := true, isSystem := true } ],
    journalEntries := [], ledgerEntries := [], nextAccountId := 5,
    nextJournalEntryId := 1, nextLedgerEntryId := 1, now := 0 }

/-- The sale of the spec's scenario: 116.00 total, 70.00 cost, in cents. -/
def saleData42 : SaleData :=
  { saleId := 42, userId := 1, total := 11600, costOfGoodsSold := 7000,
    paymentMethod := "cash" }

/-- A store with a user but no accounts at all. -/
def noChartState : DBState :=
  { users := [1], accounts := [], journalEntries := [], ledgerEntries := [],
    nextAccountId := 1, nextJournalEntryId := 1, nextLedgerEntryId := 1,
    now := 0 }

/-- C3 witness: the spec scenario posts against the seeded chart, and
recording a sale against an empty chart fails with the configuration
error and changes nothing. -/
theorem recordSale_posts_four_lines_witness :
    (∃ je, (recordSale saleChartState saleData42).2 = .ok je ∧
      je.referenceType = some "sale" ∧ je.referenceId = some 42 ∧
      je.status = "posted") ∧
    recordSale noChartState saleData42 =
      (noChartState, .error .accountsNotFound) := by
  constructor
  · obtain ⟨je, h1, h2, h3, h4, _⟩ :=
      (recordSale_posts_four_lines saleChartState saleData42).1 _ _ _ _
        rfl rfl rfl rfl (by decide) (by decide) (by decide) (by decide)
    exact ⟨je, h1, h2, h3, h4⟩
  · have hnone : getAccountByCode noChartState "1000" = none := by decide
    exact (recordSale_posts_four_lines noChartState saleData42).2
      (Or.inl hnone)

/-! ## C4 — balance totals and sign convention -/

/-- C4: `getAccountBalance` reports the debit total as the sum of the
account's line debits, the credit total as the sum of its line credits,
and signs the balance by the account's normal-balance side: debits
minus credits for a debit-normal account, credits minus debits for a
credit-normal one. -/
theorem getAccountBalance_totals_and_sign (s : DBState) (accountId : Nat)
    (asOfDate : Option Int) (a : Account)
    (ha : getAccount s accountId = some a) :
    (getAccountBalance s accountId asOfDate).debitTotal =
      ((s.ledgerEntries.filter (fun e => e.accountId == accountId)).map
        (fun e => e.debit)).sum ∧
    (getAccountBalance s accountId asOfDate).creditTotal =
      ((s.ledgerEntries.filter (fun e => e.accountId == accountId)).map
        (fun e => e.credit)).sum ∧
    (a.normalBalance = "debit" →
      (getAccountBalance s accountId asOfDate).balance =
        (getAccountBalance s accountId asOfDate).debitTotal -
          (getAccountBalance s accountId asOfDate).creditTotal) ∧
    (a.normalBalance = "credit" →
      (getAccountBalance s accountId asOfDate).balance =
        (getAccountBalance s accountId asOfDate).creditTotal -
          (getAccountBalance s accountId asOfDate).debitTotal) := by
  refine ⟨?_, ?_, ?_, ?_⟩
  · simp [getAccountBalance, foldl_add_map]
  · simp [getAccountBalance, foldl_add_map]
  · intro h
    simp [getAccountBalance, ha, h]
  · intro h
    simp [getAccountBalance, ha, h]

def acctDebitNormal : Account :=
  { id := 1, code := "1000", name := "Cash", type' := "asset",
    subtype := none, normalBalance := "debit", description := none,
    isActive := true, isSystem := true }

def acctCreditNormal : Account :=
  { id := 2, code := "4000", name := "Sales Revenue", type' := "revenue",
    subtype := none, normalBalance := "credit", description := none,
    isActive := true, isSystem := true }

/-- Raw postings of {debit 100, credit 30} then {debit 50, credit 0}
against each of the two fixture accounts. -/
def stateBal : DBState :=
  { users := [1], accounts := [acctDebitNormal, acctCreditNormal],
    journalEntries := [], ledgerEntries :=
      [ { id := 1, journalEntryId := 1, accountId := 1, debit := 100,
          credit := 30, description := none, createdAt := 0 },
        { id := 2, journalEntryId := 1, accountId := 1, debit := 50,
          credit := 0, description := none, createdAt := 0 },
        { id := 3, journalEntryId := 1, accountId := 2, debit := 100,
          credit := 30, description := none, createdAt := 0 },
        { id := 4, journalEntryId := 1, accountId := 2, debit := 50,
          credit := 0, description := none, createdAt := 0 } ],
    nextAccountId := 3, nextJournalEntryId := 2, nextLedgerEntryId := 5,
    now := 0 }

/-- C4 witness: with raw totals 150 debits / 30 credits, the
debit-normal account balances to 120 and the credit-normal one to −120. -/
theorem getAccountBalance_totals_and_sign_witness :
    (getAccountBalance stateBal 1 none).balance = 120 ∧
    (getAccountBalance stateBal 2 none).balance = -120 := by
  constructor
  · have h :=
      (getAccountBalance_totals_and_sign stateBal 1 none acctDebitNormal
        (by decide)).2.2.1 (by decide)
    rw [h]; decide
  · have h :=
      (getAccountBalance_totals_and_sign stateBal 2 none acctCreditNormal
        (by decide)).2.2.2 (by decide)
    rw [h]; decide

/-! ## C5 — voided entries and asOfDate in balance computation -/

/-- A store whose single journal entry is void but still has a ledger
line of 100 debit against account 1. -/
def voidedState : DBState :=
  { users := [1], accounts := [acctDebitNormal],
    journalEntries :=
      [ { id := 1, entryNumber := "JE-0001", entryDate := 0,
          description := "d", referenceType := none, referenceId := none,
          userId := 1, status := "void", notes := none, createdAt := 0,
          updatedAt := 0 } ],
    ledgerEntries :=
      [ { id := 1, journalEntryId := 1, accountId := 1, debit := 100,
          credit := 0, description := none, createdAt := 0 } ],
    nextAccountId := 2, nextJournalEntryId := 2, nextLedgerEntryId := 2,
    now := 0 }

/-- C5 counterexample: every journal entry of the store is void, yet the
line of the void entry is fully counted — the debit total is 100 and the
balance 100 where the claim requires both to be 0. -/
theorem getAccountBalance_counts_void_cex :
    voidedState.journalEntries.all (fun e => e.status == "void") = true ∧
    (getAccountBalance voidedState 1 none).debitTotal = 100 ∧
    (getAccountBalance voidedState 1 none).balance = 100 := by decide

/-- C5 amended: `getAccountBalance` sums every ledger line of the
account regardless of the parent journal entry's status — voiding an
entry changes no balance — and the `asOfDate` argument has no effect. -/
theorem getAccountBalance_ignores_status_and_date :
    (∀ s accountId d₁ d₂,
      getAccountBalance s accountId d₁ = getAccountBalance s accountId d₂) ∧
    (∀ s jeId accountId d,
      getAccountBalance (voidJournalEntry s jeId).1 accountId d =
        getAccountBalance s accountId d) :=
  ⟨fun _ _ _ _ => rfl, fun _ _ _ _ => rfl⟩

/-! ## C7 — voiding only flips the status field -/

/-- A map that fixes every element of a list is the identity on it. -/
theorem map_eq_self_of {α : Type} (l : List α) (f : α → α)
    (h : ∀ x ∈ l, f x = x) : l.map f = l := by
  induction l with
  | nil => rfl
  | cons x xs ih =>
    rw [List.map_cons, h x (by simp), ih (fun y hy => h y (by simp [hy]))]

def postedEntry : JournalEntry :=
  { id := 1, entryNumber := "JE-0001", entryDate := 0,
    description := "Opening", referenceType := none, referenceId := none,
    userId := 1, status := "posted", notes := none, createdAt := 0,
    updatedAt := 0 }

def statePosted : DBState :=
  { users := [1], accounts := [cashAcct], journalEntries := [postedEntry],
    ledgerEntries := [], nextAccountId := 2, nextJournalEntryId := 2,
    nextLedgerEntryId := 1, now := 0 }

/-- C7: `voidJournalEntry(id)` leaves users, accounts, ledger lines, the
serial counters and the clock untouched; entry-for-entry, every header
field except `status` is unchanged, the entry with the requested id gets
status `"void"`, and every other entry keeps its status; when no entry
has the id, the call returns the unchanged store with absence, and when
one does, the updated row is returned. -/
theorem voidJournalEntry_frame (s : DBState) (id : Nat) :
    (voidJournalEntry s id).1.users = s.users ∧
    (voidJournalEntry s id).1.accounts = s.accounts ∧
    (voidJournalEntry s id).1.ledgerEntries = s.ledgerEntries ∧
    (voidJournalEntry s id).1.nextAccountId = s.nextAccountId ∧
    (voidJournalEntry s id).1.nextJournalEntryId = s.nextJournalEntryId ∧
    (voidJournalEntry s id).1.nextLedgerEntryId = s.nextLedgerEntryId ∧
    (voidJournalEntry s id).1.now = s.now ∧
    List.Forall₂
      (fun old new =>
        new.id = old.id ∧ new.entryNumber = old.entryNumber ∧
        new.entryDate = old.entryDate ∧
        new.description = old.description ∧
        new.referenceType = old.referenceType ∧
        new.referenceId = old.referenceId ∧ new.userId = old.userId ∧
        new.notes = old.notes ∧ new.createdAt = old.createdAt ∧
        new.updatedAt = old.updatedAt ∧
        (old.id = id → new.status = "void") ∧
        (old.id ≠ id → new.status = old.status))
      s.journalEntries (voidJournalEntry s id).1.journalEntries ∧
    ((∀ e ∈ s.journalEntries, e.id ≠ id) → voidJournalEntry s id = (s, none)) ∧
    ((∃ e ∈ s.journalEntries, e.id = id) →
      ∃ je, (voidJournalEntry s id).2 = some je ∧ je.id = id ∧
        je.status = "void") := by
  refine ⟨rfl, rfl, rfl, rfl, rfl, rfl, rfl, ?_, ?_, ?_⟩
  · show List.Forall₂ _ s.journalEntries (s.journalEntries.map _)
    rw [List.forall₂_map_right_iff, List.forall₂_same]
    intro e _
    by_cases h : e.id = id
    · have hb : (e.id == id) = true := beq_iff_eq.mpr h
      simp [hb, h]
    · have hb : (e.id == id) = false := beq_eq_false_iff_ne.mpr h
      simp [hb, h]
  · intro h
    have hmap : s.journalEntries.map
        (fun e => if e.id == id then { e with status := "void" } else e) =
        s.journalEntries := by
      refine map_eq_self_of _ _ (fun e he => ?_)
      have hb : (e.id == id) = false := beq_eq_false_iff_ne.mpr (h e he)
      simp [hb]
    simp only [voidJournalEntry]
    rw [hmap, Prod.mk.injEq]
    refine ⟨rfl, ?_⟩
    refine List.find?_eq_none.mpr (fun e he => ?_)
    simp [beq_eq_false_iff_ne.mpr (h e he)]
  · rintro ⟨e, he, heq⟩
    have hdef : (voidJournalEntry s id).2 =
        (s.journalEntries.map
          (fun x => if x.id == id then { x with status := "void" } else x)).find?
          (fun x => x.id == id) := rfl
    have hb : (e.id == id) = true := beq_iff_eq.mpr heq
    have hmem : ({ e with status := "void" } : JournalEntry) ∈
        s.journalEntries.map
          (fun x => if x.id == id then { x with status := "void" } else x) := by
      have hm := List.mem_map_of_mem
        (fun x => if x.id == id then { x with status := "void" } else x) he
      simpa [hb] using hm
    have hsome : ((voidJournalEntry s id).2).isSome = true := by
      rw [hdef]
      exact List.find?_isSome.mpr ⟨_, hmem, by simp [heq]⟩
    obtain ⟨je, hje⟩ := Option.isSome_iff_exists.mp hsome
    have hje' : (s.journalEntries.map
        (fun x => if x.id == id then { x with status := "void" } else x)).find?
        (fun x => x.id == id) = some je := by
      rw [← hdef]; exact hje
    have hp := List.find?_some hje'
    have hjid : je.id = id := beq_iff_eq.mp hp
    refine ⟨je, hje, hjid, ?_⟩
    obtain ⟨x, _, hx⟩ := List.mem_map.mp (List.mem_of_find?_eq_some hje')
    by_cases hxid : x.id = id
    · have h2 : (if x.id == id then { x with status := "void" } else x) =
          { x with status := "void" } := by simp [beq_iff_eq.mpr hxid]
      rw [h2] at hx
      rw [← hx]
    · have h2 : (if x.id == id then { x with status := "void" } else x) = x := by
        simp [beq_eq_false_iff_ne.mpr hxid]
      rw [h2] at hx
      exact absurd (hx ▸ hjid) hxid

/-- C7 witness: voiding the one posted entry returns it voided; voiding
an unknown id returns the unchanged store and absence. -/
theorem voidJournalEntry_frame_witness :
    (∃ je, (voidJournalEntry statePosted 1).2 = some je ∧ je.id = 1 ∧
      je.status = "void") ∧
    voidJournalEntry statePosted 99 = (statePosted, none) := by
  constructor
  · exact (voidJournalEntry_frame statePosted 1).2.2.2.2.2.2.2.2.2
      ⟨postedEntry, by decide, by decide⟩
  · exact (voidJournalEntry_frame statePosted 99).2.2.2.2.2.2.2.2.1
      (by decide)

/-! ## C8 — seeding the chart of accounts -/

/-- A successful `accounts` insert appends one active row whose code was
free. -/
theorem dbInsertAccount_ok_spec {s : DBState} {ia : InsertAccount}
    {s' : DBState} {a : Account}
    (h : dbInsertAccount s ia = .ok (s', a)) :
    s'.accounts = s.accounts ++ [a] ∧ a.isActive = true ∧
    a.code = ia.code ∧
    s.accounts.any (fun x => x.code == ia.code) = false := by
  unfold dbInsertAccount at h
  split at h
  next hg => exact absurd h (by simp)
  next hg =>
    have h' := h
    simp only [Except.ok.injEq, Prod.mk.injEq] at h'
    obtain ⟨hs, ha⟩ := h'
    exact ⟨by rw [← hs, ← ha], by rw [← ha], by rw [← ha],
      Bool.eq_false_iff.mpr hg⟩

/-- A successful `createAccount` appends one active row whose code was
free. -/
theorem createAccount_ok_spec {s : DBState} {ia : InsertAccount}
    {s' : DBState} {a : Account}
    (h : createAccount s ia = (s', .ok a)) :
    s'.accounts = s.accounts ++ [a] ∧ a.isActive = true ∧
    a.code = ia.code ∧
    s.accounts.any (fun x => x.code == ia.code) = false := by
  unfold createAccount at h
  split at h
  next s'' a'' heq =>
    have h' := h
    simp only [Prod.mk.injEq, Except.ok.injEq] at h'
    obtain ⟨h1, h2⟩ := h'
    subst h1
    subst h2
    exact dbInsertAccount_ok_spec heq
  next e heq => exact absurd h (by simp)

/-- A failed `createAccount` leaves the store unchanged. -/
theorem createAccount_error_state {s : DBState} {ia : InsertAccount}
    {s' : DBState} {e : DBError}
    (h : createAccount s ia = (s', .error e)) : s' = s := by
  unfold createAccount at h
  split at h
  next s'' a'' heq => exact absurd h (by simp)
  next e' heq =>
    have h' := h
    simp only [Prod.mk.injEq] at h'
    exact h'.1.symm

/-- The seed loop only ever appends account rows. -/
theorem seedLoop_appends :
    ∀ (l : List InsertAccount) (s : DBState),
      ∃ t, (seedLoop s l).1.accounts = s.accounts ++ t := by
  intro l
  induction l with
  | nil => intro s; exact ⟨[], by simp [seedLoop]⟩
  | cons ia rest ih =>
    intro s
    unfold seedLoop
    rcases hca : createAccount s ia with ⟨s', r⟩
    cases r with
    | ok a =>
      dsimp only
      obtain ⟨t', ht'⟩ := ih s'
      refine ⟨[a] ++ t', ?_⟩
      rw [ht', (createAccount_ok_spec hca).1, List.append_assoc]
    | error e =>
      dsimp only
      exact ⟨[], by rw [createAccount_error_state hca, List.append_nil]⟩

/-- The seed loop preserves distinctness of account codes (the UNIQUE
constraint refuses any duplicate). -/
theorem seedLoop_nodup :
    ∀ (l : List InsertAccount) (s : DBState),
      (s.accounts.map (fun a => a.code)).Nodup →
      ((seedLoop s l).1.accounts.map (fun a => a.code)).Nodup := by
  intro l
  induction l with
  | nil => intro s h; simpa [seedLoop] using h
  | cons ia rest ih =>
    intro s h
    unfold seedLoop
    rcases hca : createAccount s ia with ⟨s', r⟩
    cases r with
    | ok a =>
      dsimp only
      refine ih s' ?_
      obtain ⟨hs', hact, hcode, hfree⟩ := createAccount_ok_spec hca
      rw [hs', List.map_append]
      rw [List.nodup_append]
      refine ⟨h, List.nodup_singleton _, ?_⟩
      intro c hc hc1
      simp only [List.map_cons, List.map_nil, List.mem_singleton] at hc1
      obtain ⟨x, hx, hxc⟩ := List.mem_map.mp hc
      have hxne : ¬ (x.code == ia.code) = true := List.any_eq_false.mp hfree x hx
      exact hxne (beq_iff_eq.mpr (hxc.trans (hc1.trans hcode)))
    | error e =>
      dsimp only
      rw [createAccount_error_state hca]
      exact h

/-- After running the seed loop the store is either exactly unchanged or
contains an active account. -/
theorem seedLoop_state_cases :
    ∀ (l : List InsertAccount) (s : DBState),
      (seedLoop s l).1 = s ∨
      ∃ a ∈ (seedLoop s l).1.accounts, a.isActive = true := by
  intro l
  cases l with
  | nil => intro s; exact Or.inl rfl
  | cons ia rest =>
    intro s
    unfold seedLoop
    rcases hca : createAccount s ia with ⟨s', r⟩
    cases r with
    | ok a =>
      dsimp only
      obtain ⟨hs', hact, _, _⟩ := createAccount_ok_spec hca
      obtain ⟨t, ht⟩ := seedLoop_appends rest s'
      refine Or.inr ⟨a, ?_, hact⟩
      rw [ht, hs']
      simp
    | error e =>
      dsimp only
      exact Or.inl (createAccount_error_state hca)

def inactiveOnlyState : DBState :=
  { users := [],
    accounts :=
      [ { id := 1, code := "9999", name := "Legacy", type' := "asset",
          subtype := none, normalBalance := "debit", description := none,
          isActive := false, isSystem := false } ],
    journalEntries := [], ledgerEntries := [], nextAccountId := 2,
    nextJournalEntryId := 1, nextLedgerEntryId := 1, now := 0 }

/-- C8 counterexample: the store already contains an account (an
inactive one), yet the seed operation performs 17 inserts — the
existence check looks only at *active* accounts — refuting "if any
account already exists it performs no writes". -/
theorem seedChart_writes_despite_existing_cex :
    inactiveOnlyState.accounts.length = 1 ∧
    (initChartOfAccounts inactiveOnlyState).1.accounts.length = 18 := by
  decide

/-- C8 amended: the seed is a no-op whenever an *active* account
already exists; running it twice from any state yields exactly the
state of running it once; and it never introduces a duplicate account
code (the UNIQUE constraint refuses duplicates), so distinct codes stay
distinct. -/
theorem seedChart_idempotent (s : DBState) :
    (getAllAccounts s ≠ [] → initChartOfAccounts s = (s, .ok ())) ∧
    (initChartOfAccounts (initChartOfAccounts s).1).1 =
      (initChartOfAccounts s).1 ∧
    ((s.accounts.map (fun a => a.code)).Nodup →
      ((initChartOfAccounts s).1.accounts.map (fun a => a.code)).Nodup) := by
  refine ⟨?_, ?_, ?_⟩
  · intro h
    have hl : (getAllAccounts s).length > 0 := List.length_pos.mpr h
    simp [initChartOfAccounts, hl]
  · by_cases h : (getAllAccounts s).length > 0
    · simp [initChartOfAccounts, h]
    · have h1 : initChartOfAccounts s = seedLoop s defaultAccounts := by
        simp [initChartOfAccounts, h]
      rw [h1]
      rcases seedLoop_state_cases defaultAccounts s with hL | ⟨a, ha, hact⟩
      · rw [hL, h1]
        exact hL
      · have hmem : a ∈ getAllAccounts (seedLoop s defaultAccounts).1 :=
          List.mem_filter.mpr ⟨ha, hact⟩
        have hlen : (getAllAccounts (seedLoop s defaultAccounts).1).length > 0 :=
          List.length_pos.mpr (List.ne_nil_of_mem hmem)
        simp [initChartOfAccounts, hlen]
  · intro hnd
    by_cases h : (getAllAccounts s).length > 0
    · simp [initChartOfAccounts, h, hnd]
    · have h1 : initChartOfAccounts s = seedLoop s defaultAccounts := by
        simp [initChartOfAccounts, h]
      rw [h1]
      exact seedLoop_nodup defaultAccounts s hnd

/-- C8 witness: on a store with an active account the seed is a no-op,
re-running it changes nothing, and the resulting codes are distinct. -/
theorem seedChart_idempotent_witness :
    initChartOfAccounts stateW = (stateW, .ok ()) ∧
    (initChartOfAccounts (initChartOfAccounts stateW).1).1 =
      (initChartOfAccounts stateW).1 ∧
    ((initChartOfAccounts stateW).1.accounts.map (fun a => a.code)).Nodup :=
  ⟨(seedChart_idempotent stateW).1 (by decide),
   (seedChart_idempotent stateW).2.1,
   (seedChart_idempotent stateW).2.2 (by decide)⟩

/-! ## C9 — balance lookup for an unknown account -/

def noAccountState : DBState :=
  { users := [], accounts := [], journalEntries := [], ledgerEntries := [],
    nextAccountId := 1, nextJournalEntryId := 1, nextLedgerEntryId := 1,
    now := 0 }

/-- C9 counterexample: account 99 does not exist, yet the balance route
answers 200 with a zero balance instead of a not-found result. -/
theorem balanceRoute_unknown_account_cex :
    getAccount noAccountState 99 = none ∧
    getAccountBalanceRoute noAccountState 99 =
      .ok { balance := 0, debitTotal := 0, creditTotal := 0 } := by decide

/-- C9 amended: for an unknown accountId the balance operation does not
report not-found; it returns an ordinary result whose totals are the
sums over that id's ledger lines and whose balance uses the
credit-normal formula (the `else` branch of the sign conditional). -/
theorem balanceRoute_unknown_account_ok (s : DBState) (id : Nat)
    (h : getAccount s id = none) :
    getAccountBalanceRoute s id =
      .ok { balance :=
              ((s.ledgerEntries.filter (fun e => e.accountId == id)).map
                (fun e => e.credit)).sum -
              ((s.ledgerEntries.filter (fun e => e.accountId == id)).map
                (fun e => e.debit)).sum,
            debitTotal :=
              ((s.ledgerEntries.filter (fun e => e.accountId == id)).map
                (fun e => e.debit)).sum,
            creditTotal :=
              ((s.ledgerEntries.filter (fun e => e.accountId == id)).map
                (fun e => e.credit)).sum } := by
  simp [getAccountBalanceRoute, getAccountBalance, h, foldl_add_map]

/-- C9 witness: the amended behavior at the concrete empty store. -/
theorem balanceRoute_unknown_account_ok_witness :
    getAccountBalanceRoute noAccountState 99 =
      .ok { balance :=
              ((noAccountState.ledgerEntries.filter
                (fun e => e.accountId == 99)).map (fun e => e.credit)).sum -
              ((noAccountState.ledgerEntries.filter
                (fun e => e.accountId == 99)).map (fun e => e.debit)).sum,
            debitTotal :=
              ((noAccountState.ledgerEntries.filter
                (fun e => e.accountId == 99)).map (fun e => e.debit)).sum,
            creditTotal :=
              ((noAccountState.ledgerEntries.filter
                (fun e => e.accountId == 99)).map (fun e => e.credit)).sum } :=
  balanceRoute_unknown_account_ok noAccountState 99 (by decide)

/-! ## C10 — the ignored date-range parameters -/

/-- C10: the optional date-range parameters of `getJournalEntries` and
`getAccountLedger` have no effect: any choice of dates returns exactly
the sequence of the no-argument call, and `getJournalEntries` always
ranges over all journal entries (its result is a permutation of the
whole table, ordered by entry date descending). -/
theorem dateRange_params_no_effect :
    (∀ s startDate endDate,
      getJournalEntries s startDate endDate = getJournalEntries s none none) ∧
    (∀ s accountId startDate endDate,
      getAccountLedger s accountId startDate endDate =
        getAccountLedger s accountId none none) ∧
    (∀ s startDate endDate,
      (getJournalEntries s startDate endDate).Perm s.journalEntries) := by
  refine ⟨?_, ?_, ?_⟩
  · intro s sd ed
    cases sd <;> cases ed <;> rfl
  · intro s a sd ed
    rfl
  · intro s sd ed
    have h : getJournalEntries s sd ed =
        sortByDesc (fun e => e.entryDate) s.journalEntries := by
      cases sd <;> cases ed <;> rfl
    rw [h]
    exact List.perm_insertionSort _ _

/-! ## C6 — sequential entry numbering -/

/-- A sequence of posts, one after the other; stops at the first failed
post, flagging whether every post succeeded. -/
def runPosts : DBState → List JournalEntryInput → DBState × Bool
  | s, [] => (s, true)
  | s, i :: rest =>
    match createJournalEntry s i with
    | (s', .ok _) => runPosts s' rest
    | (s', .error _) => (s', false)

/-- A ledger-line insert never touches the journal-entry table. -/
theorem dbInsertLedgerEntry_ok_frame {s : DBState} {jid aid : Nat}
    {de cr : Int} {ds : Option String} {s' : DBState} {le : LedgerEntry}
    (h : dbInsertLedgerEntry s jid aid de cr ds = .ok (s', le)) :
    s'.journalEntries = s.journalEntries ∧
    s'.nextJournalEntryId = s.nextJournalEntryId := by
  unfold dbInsertLedgerEntry at h
  split at h
  next => exact absurd h (by simp)
  next =>
    split at h
    next => exact absurd h (by simp)
    next =>
      split at h
      next => exact absurd h (by simp)
      next =>
        have h' := h
        simp only [Except.ok.injEq, Prod.mk.injEq] at h'
        obtain ⟨hs, _⟩ := h'
        rw [← hs]
        exact ⟨rfl, rfl⟩

/-- The line-insert loop never touches the journal-entry table. -/
theorem insertLinesLoop_frame :
    ∀ (lines : List JournalLineInput) (s : DBState) (jid : Nat) (d : String),
      (insertLinesLoop s jid d lines).1.journalEntries = s.journalEntries ∧
      (insertLinesLoop s jid d lines).1.nextJournalEntryId =
        s.nextJournalEntryId := by
  intro lines
  induction lines with
  | nil => intro s jid d; exact ⟨rfl, rfl⟩
  | cons x rest ih =>
    intro s jid d
    unfold insertLinesLoop
    cases hca : dbInsertLedgerEntry s jid x.accountId x.debit x.credit
        (some (jsOrElse x.description d)) with
    | error e =>
      exact ⟨rfl, rfl⟩
    | ok p =>
      rcases p with ⟨s', le⟩
      dsimp only
      have hf := dbInsertLedgerEntry_ok_frame hca
      obtain ⟨h1, h2⟩ := ih s' jid d
      exact ⟨h1.trans hf.1, h2.trans hf.2⟩

/-- What any successful post did to the journal-entry table. -/
theorem createJournalEntry_ok_inv {s : DBState} {input : JournalEntryInput}
    {s' : DBState} {je : JournalEntry}
    (h : createJournalEntry s input = (s', .ok je)) :
    s'.journalEntries = s.journalEntries ++ [je] ∧
    je.entryNumber = generateEntryNumber s.journalEntries ∧
    je.id = s.nextJournalEntryId ∧
    s'.nextJournalEntryId = s.nextJournalEntryId + 1 := by
  simp only [createJournalEntry] at h
  split at h
  next => exact absurd h (by simp)
  next hbal =>
    split at h
    next e heq => exact absurd h (by simp)
    next s1 je0 heq =>
      split at h
      next s2 u hloop =>
        have h' := h
        simp only [Prod.mk.injEq, Except.ok.injEq] at h'
        obtain ⟨hs2, hje0⟩ := h'
        obtain ⟨hs1eq, hje0eq, _, _⟩ := dbInsertJournalEntry_ok_spec heq
        have hframe := insertLinesLoop_frame input.entries s1 je0.id
          input.description
        rw [hloop] at hframe
        subst hje0
        subst hs2
        refine ⟨?_, ?_, ?_, ?_⟩
        · rw [hframe.1, hs1eq, hje0eq]
        · rw [hje0eq]
        · rw [hje0eq]
        · rw [hframe.2, hs1eq]
      next s2 err hloop => exact absurd h (by simp)

/-- The invariant a run of sequential successful posts maintains: the
entry numbers so far are exactly `JE-0001 … JE-k` in order, ids are
strictly increasing, and all ids are below the next serial id. -/
def entryLogInv (s : DBState) (k : Nat) : Prop :=
  s.journalEntries.map (fun e => e.entryNumber) =
    (List.range k).map (fun j => mkEntryNumber (j + 1)) ∧
  List.Pairwise (fun a b => a.id < b.id) s.journalEntries ∧
  ∀ e ∈ s.journalEntries, e.id < s.nextJournalEntryId

/-- One successful post takes the invariant from `k` to `k + 1` and
stamps the new entry with number `JE-(k+1)`. -/
theorem createJournalEntry_ok_num {s : DBState} {input : JournalEntryInput}
    {s' : DBState} {je : JournalEntry} {k : Nat}
    (hinv : entryLogInv s k)
    (h : createJournalEntry s input = (s', .ok je)) :
    entryLogInv s' (k + 1) ∧ je.entryNumber = mkEntryNumber (k + 1) := by
  obtain ⟨hmap, hpw, hbound⟩ := hinv
  obtain ⟨hjes, hnum, hid, hnext⟩ := createJournalEntry_ok_inv h
  have hgen : generateEntryNumber s.journalEntries = mkEntryNumber (k + 1) := by
    cases k with
    | zero =>
      have h0 : s.journalEntries.map (fun e => e.entryNumber) = [] := by
        rw [hmap]
        rfl
      rw [List.map_eq_nil.mp h0]
      decide
    | succ j =>
      have hlast : lastByIdDesc s.journalEntries = s.journalEntries.getLast? :=
        lastByIdDesc_increasing _ hpw
      have hmap' : (s.journalEntries.map (fun e => e.entryNumber)).getLast? =
          some (mkEntryNumber (j + 1)) := by
        rw [hmap, List.range_succ, List.map_append]
        exact List.getLast?_concat _
      rcases hgl : s.journalEntries.getLast? with _ | e
      · have hnil : s.journalEntries = [] := by
          cases hjl : s.journalEntries with
          | nil => rfl
          | cons a l =>
            rw [hjl] at hgl
            rw [List.getLast?_cons] at hgl
            exact absurd hgl (by simp)
        rw [hnil] at hmap'
        exact absurd hmap' (by simp)
      · have h2 := List.getLast?_map (fun e => e.entryNumber) s.journalEntries
        rw [hgl, hmap'] at h2
        have he : e.entryNumber = mkEntryNumber (j + 1) := by
          have := h2
          simp at this
          exact this.symm
        exact generateEntryNumber_mk _ e (j + 1) (hlast.trans hgl) he
  refine ⟨⟨?_, ?_, ?_⟩, ?_⟩
  · rw [hjes, List.map_append, hmap, List.range_succ, List.map_append]
    simp [hnum, hgen]
  · rw [hjes, List.pairwise_append]
    refine ⟨hpw, List.pairwise_singleton _ _, ?_⟩
    intro a ha b hb
    simp only [List.mem_singleton] at hb
    subst hb
    rw [hid]
    exact hbound a ha
  · intro e he
    rw [hjes] at he
    rcases List.mem_append.mp he with h' | h'
    · have := hbound e h'
      rw [hnext]
      omega
    · simp only [List.mem_singleton] at h'
      subst h'
      rw [hid, hnext]
      omega
  · rw [hnum, hgen]

/-- A run of all-successful posts takes the invariant forward by the
number of posts. -/
theorem runPosts_inv :
    ∀ (inputs : List JournalEntryInput) (s : DBState) (k : Nat),
      entryLogInv s k → (runPosts s inputs).2 = true →
      entryLogInv (runPosts s inputs).1 (k + inputs.length) := by
  intro inputs
  induction inputs with
  | nil =>
    intro s k hinv hok
    simpa using hinv
  | cons i rest ih =>
    intro s k hinv hok
    unfold runPosts at hok ⊢
    cases hc : createJournalEntry s i with
    | mk s' r =>
      rw [hc] at hok
      cases r with
      | ok je =>
        dsimp only at hok ⊢
        have hstep := createJournalEntry_ok_num hinv hc
        have hres := ih s' (k + 1) hstep.1 hok
        have harith : k + 1 + rest.length = k + (i :: rest).length := by
          simp [List.length_cons]
          omega
        rw [← harith]
        exact hres
      | error e =>
        dsimp only at hok
        exact absurd hok (by simp)

/-- C6: starting from an empty journal, a run of sequential posts in
which every post succeeds numbers its entries `JE-0001`, `JE-0002`, …:
the k-th entry's number is the fixed prefix plus the previous highest
number incremented, zero-padded; the numeric parts are strictly
increasing with no duplicates; and the first post receives `JE-0001`. -/
theorem entryNumbers_sequential_posts (s0 : DBState)
    (inputs : List JournalEntryInput)
    (hempty : s0.journalEntries = [])
    (hok : (runPosts s0 inputs).2 = true) :
    (runPosts s0 inputs).1.journalEntries.map (fun e => e.entryNumber) =
      (List.range inputs.length).map (fun j => mkEntryNumber (j + 1)) ∧
    List.Pairwise (· < ·)
      (((runPosts s0 inputs).1.journalEntries.map
        (fun e => e.entryNumber)).map numericPart) ∧
    (inputs ≠ [] →
      ((runPosts s0 inputs).1.journalEntries.map
        (fun e => e.entryNumber)).head? = some "JE-0001") := by
  have hinv0 : entryLogInv s0 0 := by
    refine ⟨?_, ?_, ?_⟩ <;> simp [hempty]
  have hinv := runPosts_inv inputs s0 0 hinv0 hok
  obtain ⟨hmap, _, _⟩ := hinv
  rw [Nat.zero_add] at hmap
  refine ⟨hmap, ?_, ?_⟩
  · rw [hmap, List.map_map]
    have hcomp : ((List.range inputs.length).map
        (fun j => numericPart (mkEntryNumber (j + 1)))) =
        (List.range inputs.length).map (fun j => j + 1) :=
      List.map_congr_left (fun j _ => numericPart_mk (j + 1))
    rw [show (numericPart ∘ fun j => mkEntryNumber (j + 1)) =
      (fun j => numericPart (mkEntryNumber (j + 1))) from rfl]
    rw [hcomp]
    refine List.pairwise_map.mpr ?_
    exact (List.pairwise_lt_range inputs.length).imp (by omega)
  · intro hne
    rw [hmap]
    cases hl : inputs.length with
    | zero => exact absurd (List.length_eq_zero.mp hl) hne
    | succ m =>
      rw [List.range_succ_eq_map]
      simp only [List.map_cons, List.head?_cons]
      decide

/-- C6 witness: two concrete sequential posts from an empty journal get
`JE-0001` then `JE-0002`. -/
theorem entryNumbers_sequential_posts_witness :
    (runPosts stateW [balancedInput, balancedInput]).1.journalEntries.map
      (fun e => e.entryNumber) =
      (List.range 2).map (fun j => mkEntryNumber (j + 1)) ∧
    ((runPosts stateW [balancedInput, balancedInput]).1.journalEntries.map
      (fun e => e.entryNumber)).head? = some "JE-0001" := by
  have h := entryNumbers_sequential_posts stateW [balancedInput, balancedInput]
    rfl (by decide)
  exact ⟨h.1, h.2.2 (by decide)⟩

end SmartPOS
